import Mathlib

/-!
# Verification of the Terrapane `bitutil` library

Shallow embedding of the C++ sources (`bit_rotation.h`, `bit_shift.h`,
`significant_bit.h`, `byte_order.h`, `byte_order.cpp`) of the
`terrapane/bitutil` repository, together with proofs of the behavioural
properties stated in its specification.

Conventions of the embedding:
* A `w`-bit unsigned machine value is a `Nat` that is `< 2 ^ w`.
* C++ `<<` on a `w`-bit unsigned operand is `(· <<< bits) % 2 ^ w`
  (for the narrow types the computation happens in a promoted wider type
  and is reduced modulo `2 ^ w` on conversion back to the operand type;
  since every result below is masked with a value `< 2 ^ w`, the two
  readings give identical results).
* C++ `>>`, `|`, `&` on unsigned operands are `>>>`, `|||`, `&&&` on `Nat`.
* A `w`-bit signed machine value is an `Int` in `[-2^(w-1), 2^(w-1))`;
  `static_cast` to the unsigned type of the same width is `(· % 2 ^ w)`
  followed by `Int.toNat`, and `~v` for `v` in range is `-v - 1`.
-/

namespace Terra.BitUtil

/-! ## bit_rotation.h -/

/-- `RotateLeft(value, bits, width, mask)` from `bit_rotation.h`:
`((value << bits) | ((value & mask) >> (width - bits))) & mask`,
for a type whose storage width is `w` bits. -/
def RotateLeft (w value bits width mask : Nat) : Nat :=
  (((value <<< bits) % 2 ^ w) ||| ((value &&& mask) >>> (width - bits))) &&& mask

/-- `RotateRight(value, bits, width, mask)` from `bit_rotation.h`:
`(((value & mask) >> bits) | (value << (width - bits))) & mask`,
for a type whose storage width is `w` bits. -/
def RotateRight (w value bits width mask : Nat) : Nat :=
  (((value &&& mask) >>> bits) ||| ((value <<< (width - bits)) % 2 ^ w)) &&& mask

/-- `RotateLeft` with its default arguments for an exact-width `w`-bit
unsigned type: `width = sizeof(T) * CHAR_BIT = w` and
`mask = std::numeric_limits<T>::max() = 2 ^ w - 1`. -/
def RotateLeftD (w value bits : Nat) : Nat :=
  RotateLeft w value bits w (2 ^ w - 1)

/-- `RotateRight` with its default arguments for an exact-width `w`-bit
unsigned type. -/
def RotateRightD (w value bits : Nat) : Nat :=
  RotateRight w value bits w (2 ^ w - 1)

/-! ## bit_shift.h -/

/-- `ShiftLeft(value, bits, mask)` from `bit_shift.h`:
`(value << bits) & mask`, for a type of storage width `w`. -/
def ShiftLeft (w value bits mask : Nat) : Nat :=
  ((value <<< bits) % 2 ^ w) &&& mask

/-- `ShiftRight(value, bits, mask)` from `bit_shift.h`:
`(value & mask) >> bits`. -/
def ShiftRight (w value bits mask : Nat) : Nat :=
  (value &&& mask) >>> bits

/-- `ShiftLeft` with its default mask `std::numeric_limits<T>::max()`. -/
def ShiftLeftD (w value bits : Nat) : Nat :=
  ShiftLeft w value bits (2 ^ w - 1)

/-- `ShiftRight` with its default mask. -/
def ShiftRightD (w value bits : Nat) : Nat :=
  ShiftRight w value bits (2 ^ w - 1)

/-! ## Spec-side formulas (for the refinement claims C1 and C9)

These restate the formulas written in the specification document, to be
compared with the definitions taken from the source. -/

/-- The spec formula `((value << bits) | ((value & mask) >> (width - bits))) & mask`. -/
def rotateLeftSpecFormula (w value bits width mask : Nat) : Nat :=
  (((value <<< bits) % 2 ^ w) ||| ((value &&& mask) >>> (width - bits))) &&& mask

/-- The spec formula `(((value & mask) >> bits) | (value << (width - bits))) & mask`. -/
def rotateRightSpecFormula (w value bits width mask : Nat) : Nat :=
  (((value &&& mask) >>> bits) ||| ((value <<< (width - bits)) % 2 ^ w)) &&& mask

/-- The spec formula `(value << bits) & mask`. -/
def shiftLeftSpecFormula (w value bits mask : Nat) : Nat :=
  ((value <<< bits) % 2 ^ w) &&& mask

/-- The spec formula `(value & mask) >> bits`. -/
def shiftRightSpecFormula (w value bits mask : Nat) : Nat :=
  (value &&& mask) >>> bits

/-- C1: for every integral value, rotation amount `bits`, `width` and `mask`
with `0 < bits < width`, `RotateLeft(value, bits, width, mask)` equals
`((value << bits) | ((value & mask) >> (width - bits))) & mask` and
`RotateRight(value, bits, width, mask)` equals
`(((value & mask) >> bits) | (value << (width - bits))) & mask`, with
`width` defaulting to the operand type's full bit width and `mask`
defaulting to all-ones. -/
theorem rotate_matches_spec_formula (w value bits width mask : Nat)
    (hb : 0 < bits) (hbw : bits < width) :
    RotateLeft w value bits width mask
        = rotateLeftSpecFormula w value bits width mask ∧
    RotateRight w value bits width mask
        = rotateRightSpecFormula w value bits width mask ∧
    RotateLeftD w value bits = RotateLeft w value bits w (2 ^ w - 1) ∧
    RotateRightD w value bits = RotateRight w value bits w (2 ^ w - 1) :=
  ⟨rfl, rfl, rfl, rfl⟩

/-- Witness for C1 at `w = 32`, `value = 0xFFFF`, `bits = 4`. -/
theorem rotate_matches_spec_formula_witness :
    RotateLeft 32 0xFFFF 4 32 0xFFFFFFFF
        = rotateLeftSpecFormula 32 0xFFFF 4 32 0xFFFFFFFF ∧
    RotateRight 32 0xFFFF 4 32 0xFFFFFFFF
        = rotateRightSpecFormula 32 0xFFFF 4 32 0xFFFFFFFF ∧
    RotateLeftD 32 0xFFFF 4 = RotateLeft 32 0xFFFF 4 32 (2 ^ 32 - 1) ∧
    RotateRightD 32 0xFFFF 4 = RotateRight 32 0xFFFF 4 32 (2 ^ 32 - 1) :=
  rotate_matches_spec_formula 32 0xFFFF 4 32 0xFFFFFFFF (by decide) (by decide)

/-- C9: for every integral value, shift amount within the type's bit width
and mask (defaulting to all-ones), `ShiftLeft(value, bits, mask)` equals
`(value << bits) & mask` and `ShiftRight(value, bits, mask)` equals
`(value & mask) >> bits`; in particular
`ShiftLeft(uint8(0b00000011), 2) = 0b00001100`. -/
theorem shift_matches_spec_formula (w value bits mask : Nat) (hb : bits ≤ w) :
    ShiftLeft w value bits mask = shiftLeftSpecFormula w value bits mask ∧
    ShiftRight w value bits mask = shiftRightSpecFormula w value bits mask ∧
    ShiftLeftD w value bits = ShiftLeft w value bits (2 ^ w - 1) ∧
    ShiftRightD w value bits = ShiftRight w value bits (2 ^ w - 1) ∧
    ShiftLeftD 8 3 2 = 12 :=
  ⟨rfl, rfl, rfl, rfl, by decide⟩

/-- Witness for C9 at `w = 8`, `value = 3`, `bits = 2`. -/
theorem shift_matches_spec_formula_witness :
    ShiftLeft 8 3 2 0xFF = shiftLeftSpecFormula 8 3 2 0xFF ∧
    ShiftRight 8 3 2 0xFF = shiftRightSpecFormula 8 3 2 0xFF ∧
    ShiftLeftD 8 3 2 = ShiftLeft 8 3 2 (2 ^ 8 - 1) ∧
    ShiftRightD 8 3 2 = ShiftRight 8 3 2 (2 ^ 8 - 1) ∧
    ShiftLeftD 8 3 2 = 12 :=
  shift_matches_spec_formula 8 3 2 0xFF (by decide)

/-! ## Closed forms of the default rotations -/

/-- With default `width`/`mask`, a left rotation of a `w`-bit value by `k`
(`0 < k < w`) moves the low `w - k` bits up by `k` and the high `k` bits
down to the bottom. -/
theorem rotateLeftD_closed (w x k : Nat) (hx : x < 2 ^ w)
    (hkw : k < w) :
    RotateLeftD w x k = x % 2 ^ (w - k) * 2 ^ k + x / 2 ^ (w - k) := by
  have hsplit : 2 ^ w = 2 ^ (w - k) * 2 ^ k := by
    rw [← pow_add]
    congr 1
    omega
  have hdiv : x / 2 ^ (w - k) < 2 ^ k := by
    rw [Nat.div_lt_iff_lt_mul (Nat.two_pow_pos (w - k))]
    calc x < 2 ^ w := hx
    _ = 2 ^ k * 2 ^ (w - k) := by rw [← pow_add]; congr 1; omega
  have hmodlt : x % 2 ^ (w - k) < 2 ^ (w - k) := Nat.mod_lt _ (Nat.two_pow_pos _)
  have hbound : x % 2 ^ (w - k) * 2 ^ k + x / 2 ^ (w - k) < 2 ^ w := by
    have h1 : (x % 2 ^ (w - k) + 1) * 2 ^ k ≤ 2 ^ (w - k) * 2 ^ k :=
      Nat.mul_le_mul_right _ hmodlt
    have h2 : x % 2 ^ (w - k) * 2 ^ k + x / 2 ^ (w - k)
        < (x % 2 ^ (w - k) + 1) * 2 ^ k := by
      rw [Nat.add_mul, Nat.one_mul]
      exact Nat.add_lt_add_left hdiv _
    rw [hsplit]
    exact Nat.lt_of_lt_of_le h2 h1
  unfold RotateLeftD RotateLeft
  rw [Nat.and_pow_two_sub_one_eq_mod, Nat.and_pow_two_sub_one_eq_mod,
    Nat.mod_eq_of_lt hx, Nat.shiftLeft_eq, Nat.shiftRight_eq_div_pow]
  rw [hsplit, Nat.mul_mod_mul_right]
  rw [Nat.mul_comm (x % 2 ^ (w - k)) (2 ^ k), ← Nat.mul_add_lt_is_or hdiv,
    Nat.mul_comm (2 ^ k) (x % 2 ^ (w - k))]
  rw [← hsplit]
  exact Nat.mod_eq_of_lt hbound

/-- With default `width`/`mask`, a right rotation of a `w`-bit value by `k`
(`0 < k < w`) moves the low `k` bits to the top and the rest down by `k`. -/
theorem rotateRightD_closed (w x k : Nat) (hx : x < 2 ^ w)
    (hkw : k < w) :
    RotateRightD w x k = x % 2 ^ k * 2 ^ (w - k) + x / 2 ^ k := by
  have hsplit : 2 ^ w = 2 ^ k * 2 ^ (w - k) := by
    rw [← pow_add]
    congr 1
    omega
  have hdiv : x / 2 ^ k < 2 ^ (w - k) := by
    rw [Nat.div_lt_iff_lt_mul (Nat.two_pow_pos k)]
    calc x < 2 ^ w := hx
    _ = 2 ^ (w - k) * 2 ^ k := by rw [← pow_add]; congr 1; omega
  have hmodlt : x % 2 ^ k < 2 ^ k := Nat.mod_lt _ (Nat.two_pow_pos _)
  have hbound : x % 2 ^ k * 2 ^ (w - k) + x / 2 ^ k < 2 ^ w := by
    have h1 : (x % 2 ^ k + 1) * 2 ^ (w - k) ≤ 2 ^ k * 2 ^ (w - k) :=
      Nat.mul_le_mul_right _ hmodlt
    have h2 : x % 2 ^ k * 2 ^ (w - k) + x / 2 ^ k
        < (x % 2 ^ k + 1) * 2 ^ (w - k) := by
      rw [Nat.add_mul, Nat.one_mul]
      exact Nat.add_lt_add_left hdiv _
    rw [hsplit]
    exact Nat.lt_of_lt_of_le h2 h1
  unfold RotateRightD RotateRight
  rw [Nat.and_pow_two_sub_one_eq_mod, Nat.and_pow_two_sub_one_eq_mod,
    Nat.mod_eq_of_lt hx, Nat.shiftLeft_eq, Nat.shiftRight_eq_div_pow]
  rw [hsplit, Nat.mul_mod_mul_right]
  rw [Nat.lor_comm, Nat.mul_comm (x % 2 ^ k) (2 ^ (w - k)),
    ← Nat.mul_add_lt_is_or hdiv, Nat.mul_comm (2 ^ (w - k)) (x % 2 ^ k)]
  rw [← hsplit]
  exact Nat.mod_eq_of_lt hbound

/-- C2: for every fixed-width unsigned value `x` of width `W ∈ {8,16,32,64}`
and every rotation count `0 < k < W`, `RotateLeft(RotateRight(x,k),k) = x`
and `RotateRight(RotateLeft(x,k),k) = x`, with default width and mask. -/
theorem rotate_inverse (w x k : Nat)
    (hw : w = 8 ∨ w = 16 ∨ w = 32 ∨ w = 64) (hx : x < 2 ^ w)
    (hk0 : 0 < k) (hkw : k < w) :
    RotateLeftD w (RotateRightD w x k) k = x ∧
    RotateRightD w (RotateLeftD w x k) k = x := by
  clear hw hk0
  have hkpos : 0 < 2 ^ k := Nat.two_pow_pos k
  have hwkpos : 0 < 2 ^ (w - k) := Nat.two_pow_pos (w - k)
  constructor
  · rw [rotateRightD_closed w x k hx hkw]
    set a := x % 2 ^ k with ha
    set b := x / 2 ^ k with hb
    have halt : a < 2 ^ k := Nat.mod_lt _ hkpos
    have hblt : b < 2 ^ (w - k) := by
      rw [hb, Nat.div_lt_iff_lt_mul hkpos]
      calc x < 2 ^ w := hx
      _ = 2 ^ (w - k) * 2 ^ k := by rw [← pow_add]; congr 1; omega
    have hy : a * 2 ^ (w - k) + b < 2 ^ w := by
      have h1 : (a + 1) * 2 ^ (w - k) ≤ 2 ^ k * 2 ^ (w - k) :=
        Nat.mul_le_mul_right _ halt
      have h2 : a * 2 ^ (w - k) + b < (a + 1) * 2 ^ (w - k) := by
        rw [Nat.add_mul, Nat.one_mul]
        exact Nat.add_lt_add_left hblt _
      have h3 : 2 ^ k * 2 ^ (w - k) = 2 ^ w := by rw [← pow_add]; congr 1; omega
      omega
    rw [rotateLeftD_closed w _ k hy hkw]
    have hm : (a * 2 ^ (w - k) + b) % 2 ^ (w - k) = b := by
      rw [Nat.mul_comm a (2 ^ (w - k)), Nat.mul_add_mod]
      exact Nat.mod_eq_of_lt hblt
    have hd : (a * 2 ^ (w - k) + b) / 2 ^ (w - k) = a := by
      rw [Nat.mul_comm a (2 ^ (w - k)), Nat.mul_add_div hwkpos,
        Nat.div_eq_of_lt hblt, Nat.add_zero]
    rw [hm, hd, ha, hb, Nat.mul_comm (x / 2 ^ k) (2 ^ k)]
    exact Nat.div_add_mod x (2 ^ k)
  · rw [rotateLeftD_closed w x k hx hkw]
    set a := x % 2 ^ (w - k) with ha
    set b := x / 2 ^ (w - k) with hb
    have halt : a < 2 ^ (w - k) := Nat.mod_lt _ hwkpos
    have hblt : b < 2 ^ k := by
      rw [hb, Nat.div_lt_iff_lt_mul hwkpos]
      calc x < 2 ^ w := hx
      _ = 2 ^ k * 2 ^ (w - k) := by rw [← pow_add]; congr 1; omega
    have hy : a * 2 ^ k + b < 2 ^ w := by
      have h1 : (a + 1) * 2 ^ k ≤ 2 ^ (w - k) * 2 ^ k :=
        Nat.mul_le_mul_right _ halt
      have h2 : a * 2 ^ k + b < (a + 1) * 2 ^ k := by
        rw [Nat.add_mul, Nat.one_mul]
        exact Nat.add_lt_add_left hblt _
      have h3 : 2 ^ (w - k) * 2 ^ k = 2 ^ w := by rw [← pow_add]; congr 1; omega
      omega
    rw [rotateRightD_closed w _ k hy hkw]
    have hm : (a * 2 ^ k + b) % 2 ^ k = b := by
      rw [Nat.mul_comm a (2 ^ k), Nat.mul_add_mod]
      exact Nat.mod_eq_of_lt hblt
    have hd : (a * 2 ^ k + b) / 2 ^ k = a := by
      rw [Nat.mul_comm a (2 ^ k), Nat.mul_add_div hkpos,
        Nat.div_eq_of_lt hblt, Nat.add_zero]
    rw [hm, hd, ha, hb, Nat.mul_comm (x / 2 ^ (w - k)) (2 ^ (w - k))]
    exact Nat.div_add_mod x (2 ^ (w - k))

/-- Witness for C2 at `w = 8`, `x = 0xB7`, `k = 3`. -/
theorem rotate_inverse_witness :
    RotateLeftD 8 (RotateRightD 8 0xB7 3) 3 = 0xB7 ∧
    RotateRightD 8 (RotateLeftD 8 0xB7 3) 3 = 0xB7 :=
  rotate_inverse 8 0xB7 3 (Or.inl rfl) (by decide) (by decide) (by decide)

/-- C3: for every fixed-width unsigned value `x` of width `W ∈ {8,16,32,64}`
and every `0 < k < W`, `RotateLeft(x, k) = RotateRight(x, W - k)` with the
default width and mask. -/
theorem rotateLeft_eq_rotateRight_compl (w x k : Nat)
    (hw : w = 8 ∨ w = 16 ∨ w = 32 ∨ w = 64) (hx : x < 2 ^ w)
    (hk0 : 0 < k) (hkw : k < w) :
    RotateLeftD w x k = RotateRightD w x (w - k) := by
  clear hw
  have hwk : w - (w - k) = k := by omega
  rw [rotateLeftD_closed w x k hx hkw,
    rotateRightD_closed w x (w - k) hx (by omega), hwk]

/-- Witness for C3 at `w = 32`, `x = 0xFFFF`, `k = 4`. -/
theorem rotateLeft_eq_rotateRight_compl_witness :
    RotateLeftD 32 0xFFFF 4 = RotateRightD 32 0xFFFF 28 :=
  rotateLeft_eq_rotateRight_compl 32 0xFFFF 4 (Or.inr (Or.inr (Or.inl rfl)))
    (by decide) (by decide) (by decide)

/-! ## significant_bit.h

Each unsigned `FindMSb` overload is a fixed sequence of halving steps
`if (v >= T(1) << k) p += k, v >>= k;` for `k = width/2, width/4, ..., 1`.
`msbStep` embeds one such line; `msbRun` runs the listed sequence. -/

/-- One line `if (v >= T(1) << k) p += k, v >>= k;` of a `FindMSb` body,
acting on the state `(p, v)`. -/
def msbStep (k : Nat) (pv : Nat × Nat) : Nat × Nat :=
  if 1 <<< k ≤ pv.2 then (pv.1 + k, pv.2 >>> k) else pv

/-- The sequence of `FindMSb` halving lines, run in order. -/
def msbRun : List Nat → Nat × Nat → Nat × Nat
  | [], pv => pv
  | k :: ks, pv => msbRun ks (msbStep k pv)

/-- `FindMSb(std::uint8_t)`: steps 4, 2, 1 starting from `p = 0`. -/
def FindMSb8 (v : Nat) : Nat := (msbRun [4, 2, 1] (0, v)).1

/-- `FindMSb(std::uint16_t)`: steps 8, 4, 2, 1 starting from `p = 0`. -/
def FindMSb16 (v : Nat) : Nat := (msbRun [8, 4, 2, 1] (0, v)).1

/-- `FindMSb(std::uint32_t)`: steps 16, 8, 4, 2, 1 starting from `p = 0`. -/
def FindMSb32 (v : Nat) : Nat := (msbRun [16, 8, 4, 2, 1] (0, v)).1

/-- `FindMSb(std::uint64_t)`: steps 32, 16, 8, 4, 2, 1 from `p = 0`. -/
def FindMSb64 (v : Nat) : Nat := (msbRun [32, 16, 8, 4, 2, 1] (0, v)).1

/-- `FindMSb(std::int8_t)`: for `v >= 0` delegate to the unsigned form on
`static_cast<uint8_t>(v)`, otherwise on `static_cast<uint8_t>(~v)`
(`~v = -v - 1` after integer promotion). -/
def FindMSbI8 (v : Int) : Nat :=
  if 0 ≤ v then FindMSb8 ((v % (2 ^ 8 : Int)).toNat)
  else FindMSb8 (((-v - 1) % (2 ^ 8 : Int)).toNat)

/-- `FindMSb(std::int16_t)`. -/
def FindMSbI16 (v : Int) : Nat :=
  if 0 ≤ v then FindMSb16 ((v % (2 ^ 16 : Int)).toNat)
  else FindMSb16 (((-v - 1) % (2 ^ 16 : Int)).toNat)

/-- `FindMSb(std::int32_t)`. -/
def FindMSbI32 (v : Int) : Nat :=
  if 0 ≤ v then FindMSb32 ((v % (2 ^ 32 : Int)).toNat)
  else FindMSb32 (((-v - 1) % (2 ^ 32 : Int)).toNat)

/-- `FindMSb(std::int64_t)`. -/
def FindMSbI64 (v : Int) : Nat :=
  if 0 ≤ v then FindMSb64 ((v % (2 ^ 64 : Int)).toNat)
  else FindMSb64 (((-v - 1) % (2 ^ 64 : Int)).toNat)

/-! ### Correctness of the halving search -/

/-- A halving-step list `ks` is good for bound `b` when running it from any
accumulator `p` on a nonzero `v < 2 ^ b` lands the accumulator exactly on
the index of the highest set bit of `v` (relative to `p`). -/
def MsbChainGood (ks : List Nat) (b : Nat) : Prop :=
  ∀ p v : Nat, v < 2 ^ b → 0 < v →
    p ≤ (msbRun ks (p, v)).1 ∧
    2 ^ ((msbRun ks (p, v)).1 - p) ≤ v ∧
    v < 2 ^ ((msbRun ks (p, v)).1 - p + 1)

theorem msbChainGood_nil : MsbChainGood [] 1 := by
  intro p v hv hpos
  show p ≤ p ∧ 2 ^ (p - p) ≤ v ∧ v < 2 ^ (p - p + 1)
  rw [Nat.sub_self]
  refine ⟨Nat.le_refl p, hpos, ?_⟩
  simpa using hv

theorem msbChainGood_cons (k : Nat) (ks : List Nat)
    (h : MsbChainGood ks k) : MsbChainGood (k :: ks) (k + k) := by
  intro p v hv hpos
  have h1k : (1 : Nat) <<< k = 2 ^ k := by rw [Nat.shiftLeft_eq, Nat.one_mul]
  have hrun : msbRun (k :: ks) (p, v) = msbRun ks (msbStep k (p, v)) := rfl
  by_cases hc : 2 ^ k ≤ v
  · have hstep : msbStep k (p, v) = (p + k, v >>> k) := by
      unfold msbStep
      rw [if_pos]
      rw [h1k]
      exact hc
    have hvdiv : v >>> k = v / 2 ^ k := Nat.shiftRight_eq_div_pow v k
    have hv' : v >>> k < 2 ^ k := by
      rw [hvdiv, Nat.div_lt_iff_lt_mul (Nat.two_pow_pos k)]
      calc v < 2 ^ (k + k) := hv
      _ = 2 ^ k * 2 ^ k := by rw [pow_add]
    have hpos' : 0 < v >>> k := by
      rw [hvdiv]
      rw [show (0 : Nat) < v / 2 ^ k ↔ 1 ≤ v / 2 ^ k from Iff.rfl,
        Nat.le_div_iff_mul_le (Nat.two_pow_pos k), Nat.one_mul]
      exact hc
    obtain ⟨hle, hlo, hhi⟩ := h (p + k) (v >>> k) hv' hpos'
    rw [hrun, hstep]
    set f := (msbRun ks (p + k, v >>> k)).1 with hf
    refine ⟨by omega, ?_, ?_⟩
    · have : 2 ^ (f - (p + k)) * 2 ^ k ≤ v := by
        rw [← Nat.le_div_iff_mul_le (Nat.two_pow_pos k), ← hvdiv]
        exact hlo
      calc 2 ^ (f - p) = 2 ^ (f - (p + k)) * 2 ^ k := by
            rw [← pow_add]
            congr 1
            omega
      _ ≤ v := this
    · have : v < 2 ^ (f - (p + k) + 1) * 2 ^ k := by
        rw [← Nat.div_lt_iff_lt_mul (Nat.two_pow_pos k), ← hvdiv]
        exact hhi
      calc v < 2 ^ (f - (p + k) + 1) * 2 ^ k := this
      _ = 2 ^ (f - p + 1) := by
            rw [← pow_add]
            congr 1
            omega
  · have hstep : msbStep k (p, v) = (p, v) := by
      unfold msbStep
      rw [if_neg]
      rw [h1k]
      exact hc
    rw [hrun, hstep]
    exact h p v (Nat.lt_of_not_le hc) hpos

theorem msbGood8 : MsbChainGood [4, 2, 1] 8 :=
  msbChainGood_cons 4 [2, 1]
    (msbChainGood_cons 2 [1] (msbChainGood_cons 1 [] msbChainGood_nil))

theorem msbGood16 : MsbChainGood [8, 4, 2, 1] 16 :=
  msbChainGood_cons 8 [4, 2, 1] msbGood8

theorem msbGood32 : MsbChainGood [16, 8, 4, 2, 1] 32 :=
  msbChainGood_cons 16 [8, 4, 2, 1] msbGood16

theorem msbGood64 : MsbChainGood [32, 16, 8, 4, 2, 1] 64 :=
  msbChainGood_cons 32 [16, 8, 4, 2, 1] msbGood32

theorem findMSb8_bracket (v : Nat) (hv : v < 2 ^ 8) (h0 : v ≠ 0) :
    2 ^ FindMSb8 v ≤ v ∧ v < 2 ^ (FindMSb8 v + 1) := by
  have h := msbGood8 0 v hv (Nat.pos_of_ne_zero h0)
  rw [Nat.sub_zero] at h
  exact h.2

theorem findMSb16_bracket (v : Nat) (hv : v < 2 ^ 16) (h0 : v ≠ 0) :
    2 ^ FindMSb16 v ≤ v ∧ v < 2 ^ (FindMSb16 v + 1) := by
  have h := msbGood16 0 v hv (Nat.pos_of_ne_zero h0)
  rw [Nat.sub_zero] at h
  exact h.2

theorem findMSb32_bracket (v : Nat) (hv : v < 2 ^ 32) (h0 : v ≠ 0) :
    2 ^ FindMSb32 v ≤ v ∧ v < 2 ^ (FindMSb32 v + 1) := by
  have h := msbGood32 0 v hv (Nat.pos_of_ne_zero h0)
  rw [Nat.sub_zero] at h
  exact h.2

theorem findMSb64_bracket (v : Nat) (hv : v < 2 ^ 64) (h0 : v ≠ 0) :
    2 ^ FindMSb64 v ≤ v ∧ v < 2 ^ (FindMSb64 v + 1) := by
  have h := msbGood64 0 v hv (Nat.pos_of_ne_zero h0)
  rw [Nat.sub_zero] at h
  exact h.2

/-- The bracket `2 ^ r ≤ 2 ^ n < 2 ^ (r + 1)` pins `r = n`. -/
theorem bracket_unique {r n : Nat} (hlo : 2 ^ r ≤ 2 ^ n)
    (hhi : 2 ^ n < 2 ^ (r + 1)) : r = n := by
  have h1 : r ≤ n := (Nat.pow_le_pow_iff_right (by norm_num)).mp hlo
  have h2 : n < r + 1 := (Nat.pow_lt_pow_iff_right (by norm_num)).mp hhi
  omega

/-- C4: for every unsigned integer `v` of width 8, 16, 32 or 64,
`FindMSb(v)` is the 0-based index of the highest set bit of `v` when
`v ≠ 0` (i.e. `2 ^ FindMSb(v) ≤ v < 2 ^ (FindMSb(v) + 1)`), `FindMSb(0) = 0`,
and in particular `FindMSb(1) = 0`, `FindMSb(2) = 1` and
`FindMSb(2 ^ n) = n` for every `n` below the width. -/
theorem findMSb_unsigned_correct :
    (∀ v, v < 2 ^ 8 → v ≠ 0 →
      2 ^ FindMSb8 v ≤ v ∧ v < 2 ^ (FindMSb8 v + 1)) ∧
    FindMSb8 0 = 0 ∧ FindMSb8 1 = 0 ∧ FindMSb8 2 = 1 ∧
    (∀ n, n < 8 → FindMSb8 (2 ^ n) = n) ∧
    (∀ v, v < 2 ^ 16 → v ≠ 0 →
      2 ^ FindMSb16 v ≤ v ∧ v < 2 ^ (FindMSb16 v + 1)) ∧
    FindMSb16 0 = 0 ∧ FindMSb16 1 = 0 ∧ FindMSb16 2 = 1 ∧
    (∀ n, n < 16 → FindMSb16 (2 ^ n) = n) ∧
    (∀ v, v < 2 ^ 32 → v ≠ 0 →
      2 ^ FindMSb32 v ≤ v ∧ v < 2 ^ (FindMSb32 v + 1)) ∧
    FindMSb32 0 = 0 ∧ FindMSb32 1 = 0 ∧ FindMSb32 2 = 1 ∧
    (∀ n, n < 32 → FindMSb32 (2 ^ n) = n) ∧
    (∀ v, v < 2 ^ 64 → v ≠ 0 →
      2 ^ FindMSb64 v ≤ v ∧ v < 2 ^ (FindMSb64 v + 1)) ∧
    FindMSb64 0 = 0 ∧ FindMSb64 1 = 0 ∧ FindMSb64 2 = 1 ∧
    (∀ n, n < 64 → FindMSb64 (2 ^ n) = n) := by
  refine ⟨findMSb8_bracket, by decide, by decide, by decide, ?_,
    findMSb16_bracket, by decide, by decide, by decide, ?_,
    findMSb32_bracket, by decide, by decide, by decide, ?_,
    findMSb64_bracket, by decide, by decide, by decide, ?_⟩
  · intro n hn
    have hb := findMSb8_bracket (2 ^ n)
      (Nat.pow_lt_pow_right (by norm_num) hn) (Nat.two_pow_pos n).ne'
    exact bracket_unique hb.1 hb.2
  · intro n hn
    have hb := findMSb16_bracket (2 ^ n)
      (Nat.pow_lt_pow_right (by norm_num) hn) (Nat.two_pow_pos n).ne'
    exact bracket_unique hb.1 hb.2
  · intro n hn
    have hb := findMSb32_bracket (2 ^ n)
      (Nat.pow_lt_pow_right (by norm_num) hn) (Nat.two_pow_pos n).ne'
    exact bracket_unique hb.1 hb.2
  · intro n hn
    have hb := findMSb64_bracket (2 ^ n)
      (Nat.pow_lt_pow_right (by norm_num) hn) (Nat.two_pow_pos n).ne'
    exact bracket_unique hb.1 hb.2

/-- Witness for C4: the 8-bit bracket conjunct applied at `v = 5`. -/
theorem findMSb_unsigned_correct_witness :
    2 ^ FindMSb8 5 ≤ 5 ∧ 5 < 2 ^ (FindMSb8 5 + 1) :=
  findMSb_unsigned_correct.1 5 (by decide) (by decide)

/-- C10: for every unsigned integer `v` of width `W ∈ {8,16,32,64}`,
`FindMSb(v) ≤ W - 1`, i.e. the result is strictly below the number of bits
in the integer (the documentation's range `0` to `n` is not attained at
`n`). -/
theorem findMSb_le_width_sub_one :
    (∀ v, v < 2 ^ 8 → FindMSb8 v ≤ 7) ∧
    (∀ v, v < 2 ^ 16 → FindMSb16 v ≤ 15) ∧
    (∀ v, v < 2 ^ 32 → FindMSb32 v ≤ 31) ∧
    (∀ v, v < 2 ^ 64 → FindMSb64 v ≤ 63) := by
  refine ⟨fun v hv => ?_, fun v hv => ?_, fun v hv => ?_, fun v hv => ?_⟩
  · rcases Nat.eq_zero_or_pos v with h0 | h0
    · subst h0
      decide
    · have hb := findMSb8_bracket v hv h0.ne'
      have : 2 ^ FindMSb8 v < 2 ^ 8 := Nat.lt_of_le_of_lt hb.1 hv
      have := (Nat.pow_lt_pow_iff_right (by norm_num : 1 < 2)).mp this
      omega
  · rcases Nat.eq_zero_or_pos v with h0 | h0
    · subst h0
      decide
    · have hb := findMSb16_bracket v hv h0.ne'
      have : 2 ^ FindMSb16 v < 2 ^ 16 := Nat.lt_of_le_of_lt hb.1 hv
      have := (Nat.pow_lt_pow_iff_right (by norm_num : 1 < 2)).mp this
      omega
  · rcases Nat.eq_zero_or_pos v with h0 | h0
    · subst h0
      decide
    · have hb := findMSb32_bracket v hv h0.ne'
      have : 2 ^ FindMSb32 v < 2 ^ 32 := Nat.lt_of_le_of_lt hb.1 hv
      have := (Nat.pow_lt_pow_iff_right (by norm_num : 1 < 2)).mp this
      omega
  · rcases Nat.eq_zero_or_pos v with h0 | h0
    · subst h0
      decide
    · have hb := findMSb64_bracket v hv h0.ne'
      have : 2 ^ FindMSb64 v < 2 ^ 64 := Nat.lt_of_le_of_lt hb.1 hv
      have := (Nat.pow_lt_pow_iff_right (by norm_num : 1 < 2)).mp this
      omega

/-- Witness for C10: the 8-bit conjunct applied at `v = 0xFF`. -/
theorem findMSb_le_width_sub_one_witness : FindMSb8 0xFF ≤ 7 :=
  findMSb_le_width_sub_one.1 0xFF (by decide)

/-- C5: for every signed integer `v` of width 8, 16, 32 or 64,
`FindMSb(v)` delegates to the unsigned overload on `v`'s bit pattern when
`v ≥ 0` and on the bit pattern of `~v` when `v < 0`; in particular
`FindMSb(-1) = 0`, and `FindMSb(x) = FindMSb(~x)` whenever `x < 0`
(`~x = -x - 1` as a signed value). -/
theorem findMSb_signed_correct :
    (∀ v : Int, (0 ≤ v → FindMSbI8 v = FindMSb8 ((v % (2 ^ 8 : Int)).toNat)) ∧
      (v < 0 → FindMSbI8 v = FindMSb8 (((-v - 1) % (2 ^ 8 : Int)).toNat))) ∧
    FindMSbI8 (-1) = 0 ∧
    (∀ v : Int, v < 0 → FindMSbI8 v = FindMSbI8 (-v - 1)) ∧
    (∀ v : Int, (0 ≤ v → FindMSbI16 v = FindMSb16 ((v % (2 ^ 16 : Int)).toNat)) ∧
      (v < 0 → FindMSbI16 v = FindMSb16 (((-v - 1) % (2 ^ 16 : Int)).toNat))) ∧
    FindMSbI16 (-1) = 0 ∧
    (∀ v : Int, v < 0 → FindMSbI16 v = FindMSbI16 (-v - 1)) ∧
    (∀ v : Int, (0 ≤ v → FindMSbI32 v = FindMSb32 ((v % (2 ^ 32 : Int)).toNat)) ∧
      (v < 0 → FindMSbI32 v = FindMSb32 (((-v - 1) % (2 ^ 32 : Int)).toNat))) ∧
    FindMSbI32 (-1) = 0 ∧
    (∀ v : Int, v < 0 → FindMSbI32 v = FindMSbI32 (-v - 1)) ∧
    (∀ v : Int, (0 ≤ v → FindMSbI64 v = FindMSb64 ((v % (2 ^ 64 : Int)).toNat)) ∧
      (v < 0 → FindMSbI64 v = FindMSb64 (((-v - 1) % (2 ^ 64 : Int)).toNat))) ∧
    FindMSbI64 (-1) = 0 ∧
    (∀ v : Int, v < 0 → FindMSbI64 v = FindMSbI64 (-v - 1)) := by
  refine ⟨fun v => ⟨fun h => ?_, fun h => ?_⟩, by decide,
      fun v h => ?_,
      fun v => ⟨fun h => ?_, fun h => ?_⟩, by decide,
      fun v h => ?_,
      fun v => ⟨fun h => ?_, fun h => ?_⟩, by decide,
      fun v h => ?_,
      fun v => ⟨fun h => ?_, fun h => ?_⟩, by decide,
      fun v h => ?_⟩
  · rw [FindMSbI8, if_pos h]
  · rw [FindMSbI8, if_neg (Int.not_le.mpr h)]
  · rw [FindMSbI8, FindMSbI8, if_neg (Int.not_le.mpr h), if_pos (by omega)]
  · rw [FindMSbI16, if_pos h]
  · rw [FindMSbI16, if_neg (Int.not_le.mpr h)]
  · rw [FindMSbI16, FindMSbI16, if_neg (Int.not_le.mpr h), if_pos (by omega)]
  · rw [FindMSbI32, if_pos h]
  · rw [FindMSbI32, if_neg (Int.not_le.mpr h)]
  · rw [FindMSbI32, FindMSbI32, if_neg (Int.not_le.mpr h), if_pos (by omega)]
  · rw [FindMSbI64, if_pos h]
  · rw [FindMSbI64, if_neg (Int.not_le.mpr h)]
  · rw [FindMSbI64, FindMSbI64, if_neg (Int.not_le.mpr h), if_pos (by omega)]

/-- Witness for C5: the 8-bit complement law applied at `v = -3`. -/
theorem findMSb_signed_correct_witness : FindMSbI8 (-3) = FindMSbI8 (-(-3) - 1) :=
  (findMSb_signed_correct.2.2.1) (-3) (by decide)

/-! ## byte_order.h / byte_order.cpp

`NetworkByteOrder` returns its argument unchanged when `IsBigEndian()`
holds and otherwise reverses the octet order with the shift/mask
expression of the source.  The host's answer to `IsBigEndian()` is the
`bigEndian` parameter of the embedding. -/

/-- The octet-reversal expression of `NetworkByteOrder(std::uint16_t)`. -/
def bswap16 (value : Nat) : Nat :=
  ((value >>> 8) &&& 0x00ff) ||| (((value <<< 8) % 2 ^ 16) &&& 0xff00)

/-- The octet-reversal expression of `NetworkByteOrder(std::uint32_t)`. -/
def bswap32 (value : Nat) : Nat :=
  ((value >>> 24) &&& 0x000000ff) ||| ((value >>> 8) &&& 0x0000ff00) |||
  (((value <<< 8) % 2 ^ 32) &&& 0x00ff0000) |||
  (((value <<< 24) % 2 ^ 32) &&& 0xff000000)

/-- The octet-reversal expression of `NetworkByteOrder(std::uint64_t)`. -/
def bswap64 (value : Nat) : Nat :=
  ((value >>> 56) &&& 0x00000000000000ff) |||
  ((value >>> 40) &&& 0x000000000000ff00) |||
  ((value >>> 24) &&& 0x0000000000ff0000) |||
  ((value >>> 8) &&& 0x00000000ff000000) |||
  (((value <<< 8) % 2 ^ 64) &&& 0x000000ff00000000) |||
  (((value <<< 24) % 2 ^ 64) &&& 0x0000ff0000000000) |||
  (((value <<< 40) % 2 ^ 64) &&& 0x00ff000000000000) |||
  (((value <<< 56) % 2 ^ 64) &&& 0xff00000000000000)

/-- `NetworkByteOrder(std::uint16_t)` on a host whose `IsBigEndian()` is
`bigEndian`. -/
def NetworkByteOrder16 (bigEndian : Bool) (value : Nat) : Nat :=
  if bigEndian then value else bswap16 value

/-- `NetworkByteOrder(std::uint32_t)`. -/
def NetworkByteOrder32 (bigEndian : Bool) (value : Nat) : Nat :=
  if bigEndian then value else bswap32 value

/-- `NetworkByteOrder(std::uint64_t)`. -/
def NetworkByteOrder64 (bigEndian : Bool) (value : Nat) : Nat :=
  if bigEndian then value else bswap64 value

/-! ### Closed forms of the octet reversals -/

/-- `x &&& m` for the contiguous mask `m = (2 ^ k - 1) * 2 ^ s` extracts
bits `s` through `s + k - 1` of `x` in place. -/
theorem and_shifted_mask (x k s : Nat) :
    x &&& (2 ^ k - 1) * 2 ^ s = x / 2 ^ s % 2 ^ k * 2 ^ s := by
  have h1 : (2 ^ k - 1) * 2 ^ s = (2 ^ k - 1) <<< s := (Nat.shiftLeft_eq _ _).symm
  have h2 : x / 2 ^ s % 2 ^ k * 2 ^ s = ((x >>> s) % 2 ^ k) <<< s := by
    rw [Nat.shiftLeft_eq, Nat.shiftRight_eq_div_pow]
  rw [h1, h2]
  apply Nat.eq_of_testBit_eq
  intro i
  simp only [Nat.testBit_and, Nat.testBit_shiftLeft, Nat.testBit_two_pow_sub_one,
    Nat.testBit_mod_two_pow, Nat.testBit_shiftRight]
  by_cases hs : s ≤ i
  · have he : s + (i - s) = i := by omega
    simp [hs, he, Bool.and_comm]
  · simp [hs]

/-- Disjoint bit ranges: `a ||| b * 2 ^ i = a + b * 2 ^ i` when `a < 2 ^ i`. -/
theorem lor_shifted_eq_add (i a b : Nat) (ha : a < 2 ^ i) :
    a ||| b * 2 ^ i = a + b * 2 ^ i := by
  rw [Nat.or_comm, Nat.mul_comm b (2 ^ i), ← Nat.mul_add_lt_is_or ha b]
  omega

theorem bswap16_closed (x : Nat) (hx : x < 2 ^ 16) :
    bswap16 x = x / 2 ^ 8 % 2 ^ 8 + x % 2 ^ 8 * 2 ^ 8 := by
  unfold bswap16
  rw [Nat.shiftRight_eq_div_pow, Nat.shiftLeft_eq]
  rw [show (0x00ff : Nat) = 2 ^ 8 - 1 from by norm_num,
    Nat.and_pow_two_sub_one_eq_mod]
  rw [show (0xff00 : Nat) = (2 ^ 8 - 1) * 2 ^ 8 from by norm_num,
    and_shifted_mask]
  have h1 : x * 2 ^ 8 % 2 ^ 16 / 2 ^ 8 % 2 ^ 8 * 2 ^ 8 = x % 2 ^ 8 * 2 ^ 8 := by
    omega
  rw [h1, lor_shifted_eq_add 8 (x / 2 ^ 8 % 2 ^ 8) (x % 2 ^ 8) (by omega)]

theorem bswap32_closed (x : Nat) (hx : x < 2 ^ 32) :
    bswap32 x = x / 2 ^ 24 % 2 ^ 8 + x / 2 ^ 16 % 2 ^ 8 * 2 ^ 8
      + x / 2 ^ 8 % 2 ^ 8 * 2 ^ 16 + x % 2 ^ 8 * 2 ^ 24 := by
  unfold bswap32
  rw [Nat.shiftRight_eq_div_pow, Nat.shiftRight_eq_div_pow,
    Nat.shiftLeft_eq, Nat.shiftLeft_eq]
  rw [show (0x000000ff : Nat) = 2 ^ 8 - 1 from by norm_num,
    Nat.and_pow_two_sub_one_eq_mod]
  rw [show (0x0000ff00 : Nat) = (2 ^ 8 - 1) * 2 ^ 8 from by norm_num,
    and_shifted_mask]
  rw [show (0x00ff0000 : Nat) = (2 ^ 8 - 1) * 2 ^ 16 from by norm_num,
    and_shifted_mask]
  rw [show (0xff000000 : Nat) = (2 ^ 8 - 1) * 2 ^ 24 from by norm_num,
    and_shifted_mask]
  have h1 : x / 2 ^ 8 / 2 ^ 8 % 2 ^ 8 * 2 ^ 8 = x / 2 ^ 16 % 2 ^ 8 * 2 ^ 8 := by
    omega
  have h2 : x * 2 ^ 8 % 2 ^ 32 / 2 ^ 16 % 2 ^ 8 * 2 ^ 16
      = x / 2 ^ 8 % 2 ^ 8 * 2 ^ 16 := by omega
  have h3 : x * 2 ^ 24 % 2 ^ 32 / 2 ^ 24 % 2 ^ 8 * 2 ^ 24
      = x % 2 ^ 8 * 2 ^ 24 := by omega
  rw [h1, h2, h3]
  rw [lor_shifted_eq_add 8 (x / 2 ^ 24 % 2 ^ 8) (x / 2 ^ 16 % 2 ^ 8) (by omega)]
  rw [lor_shifted_eq_add 16 (x / 2 ^ 24 % 2 ^ 8 + x / 2 ^ 16 % 2 ^ 8 * 2 ^ 8)
    (x / 2 ^ 8 % 2 ^ 8) (by omega)]
  rw [lor_shifted_eq_add 24
    (x / 2 ^ 24 % 2 ^ 8 + x / 2 ^ 16 % 2 ^ 8 * 2 ^ 8 + x / 2 ^ 8 % 2 ^ 8 * 2 ^ 16)
    (x % 2 ^ 8) (by omega)]

set_option maxHeartbeats 2000000 in
theorem bswap64_closed (x : Nat) (hx : x < 2 ^ 64) :
    bswap64 x = x / 2 ^ 56 % 2 ^ 8 + x / 2 ^ 48 % 2 ^ 8 * 2 ^ 8
      + x / 2 ^ 40 % 2 ^ 8 * 2 ^ 16 + x / 2 ^ 32 % 2 ^ 8 * 2 ^ 24
      + x / 2 ^ 24 % 2 ^ 8 * 2 ^ 32 + x / 2 ^ 16 % 2 ^ 8 * 2 ^ 40
      + x / 2 ^ 8 % 2 ^ 8 * 2 ^ 48 + x % 2 ^ 8 * 2 ^ 56 := by
  unfold bswap64
  rw [Nat.shiftRight_eq_div_pow, Nat.shiftRight_eq_div_pow,
    Nat.shiftRight_eq_div_pow, Nat.shiftRight_eq_div_pow,
    Nat.shiftLeft_eq, Nat.shiftLeft_eq, Nat.shiftLeft_eq, Nat.shiftLeft_eq]
  rw [show (0x00000000000000ff : Nat) = 2 ^ 8 - 1 from by norm_num,
    Nat.and_pow_two_sub_one_eq_mod]
  rw [show (0x000000000000ff00 : Nat) = (2 ^ 8 - 1) * 2 ^ 8 from by norm_num,
    and_shifted_mask]
  rw [show (0x0000000000ff0000 : Nat) = (2 ^ 8 - 1) * 2 ^ 16 from by norm_num,
    and_shifted_mask]
  rw [show (0x00000000ff000000 : Nat) = (2 ^ 8 - 1) * 2 ^ 24 from by norm_num,
    and_shifted_mask]
  rw [show (0x000000ff00000000 : Nat) = (2 ^ 8 - 1) * 2 ^ 32 from by norm_num,
    and_shifted_mask]
  rw [show (0x0000ff0000000000 : Nat) = (2 ^ 8 - 1) * 2 ^ 40 from by norm_num,
    and_shifted_mask]
  rw [show (0x00ff000000000000 : Nat) = (2 ^ 8 - 1) * 2 ^ 48 from by norm_num,
    and_shifted_mask]
  rw [show (0xff00000000000000 : Nat) = (2 ^ 8 - 1) * 2 ^ 56 from by norm_num,
    and_shifted_mask]
  have h1 : x / 2 ^ 40 / 2 ^ 8 % 2 ^ 8 * 2 ^ 8 = x / 2 ^ 48 % 2 ^ 8 * 2 ^ 8 := by
    omega
  have h2 : x / 2 ^ 24 / 2 ^ 16 % 2 ^ 8 * 2 ^ 16
      = x / 2 ^ 40 % 2 ^ 8 * 2 ^ 16 := by omega
  have h3 : x / 2 ^ 8 / 2 ^ 24 % 2 ^ 8 * 2 ^ 24
      = x / 2 ^ 32 % 2 ^ 8 * 2 ^ 24 := by omega
  have h4 : x * 2 ^ 8 % 2 ^ 64 / 2 ^ 32 % 2 ^ 8 * 2 ^ 32
      = x / 2 ^ 24 % 2 ^ 8 * 2 ^ 32 := by omega
  have h5 : x * 2 ^ 24 % 2 ^ 64 / 2 ^ 40 % 2 ^ 8 * 2 ^ 40
      = x / 2 ^ 16 % 2 ^ 8 * 2 ^ 40 := by omega
  have h6 : x * 2 ^ 40 % 2 ^ 64 / 2 ^ 48 % 2 ^ 8 * 2 ^ 48
      = x / 2 ^ 8 % 2 ^ 8 * 2 ^ 48 := by omega
  have h7 : x * 2 ^ 56 % 2 ^ 64 / 2 ^ 56 % 2 ^ 8 * 2 ^ 56
      = x % 2 ^ 8 * 2 ^ 56 := by omega
  rw [h1, h2, h3, h4, h5, h6, h7]
  rw [lor_shifted_eq_add 8 (x / 2 ^ 56 % 2 ^ 8) (x / 2 ^ 48 % 2 ^ 8) (by omega)]
  rw [lor_shifted_eq_add 16 (x / 2 ^ 56 % 2 ^ 8 + x / 2 ^ 48 % 2 ^ 8 * 2 ^ 8)
    (x / 2 ^ 40 % 2 ^ 8) (by omega)]
  rw [lor_shifted_eq_add 24 (x / 2 ^ 56 % 2 ^ 8 + x / 2 ^ 48 % 2 ^ 8 * 2 ^ 8
    + x / 2 ^ 40 % 2 ^ 8 * 2 ^ 16) (x / 2 ^ 32 % 2 ^ 8) (by omega)]
  rw [lor_shifted_eq_add 32 (x / 2 ^ 56 % 2 ^ 8 + x / 2 ^ 48 % 2 ^ 8 * 2 ^ 8
    + x / 2 ^ 40 % 2 ^ 8 * 2 ^ 16 + x / 2 ^ 32 % 2 ^ 8 * 2 ^ 24)
    (x / 2 ^ 24 % 2 ^ 8) (by omega)]
  rw [lor_shifted_eq_add 40 (x / 2 ^ 56 % 2 ^ 8 + x / 2 ^ 48 % 2 ^ 8 * 2 ^ 8
    + x / 2 ^ 40 % 2 ^ 8 * 2 ^ 16 + x / 2 ^ 32 % 2 ^ 8 * 2 ^ 24
    + x / 2 ^ 24 % 2 ^ 8 * 2 ^ 32) (x / 2 ^ 16 % 2 ^ 8) (by omega)]
  rw [lor_shifted_eq_add 48 (x / 2 ^ 56 % 2 ^ 8 + x / 2 ^ 48 % 2 ^ 8 * 2 ^ 8
    + x / 2 ^ 40 % 2 ^ 8 * 2 ^ 16 + x / 2 ^ 32 % 2 ^ 8 * 2 ^ 24
    + x / 2 ^ 24 % 2 ^ 8 * 2 ^ 32 + x / 2 ^ 16 % 2 ^ 8 * 2 ^ 40)
    (x / 2 ^ 8 % 2 ^ 8) (by omega)]
  rw [lor_shifted_eq_add 56 (x / 2 ^ 56 % 2 ^ 8 + x / 2 ^ 48 % 2 ^ 8 * 2 ^ 8
    + x / 2 ^ 40 % 2 ^ 8 * 2 ^ 16 + x / 2 ^ 32 % 2 ^ 8 * 2 ^ 24
    + x / 2 ^ 24 % 2 ^ 8 * 2 ^ 32 + x / 2 ^ 16 % 2 ^ 8 * 2 ^ 40
    + x / 2 ^ 8 % 2 ^ 8 * 2 ^ 48) (x % 2 ^ 8) (by omega)]

/-! ### Byte-level description of the octet reversals -/

theorem extractByte16_0 (b0 b1 : Nat) (h0 : b0 < 2 ^ 8) :
    (b0 + b1 * 2 ^ 8) % 2 ^ 8 = b0 := by omega

theorem extractByte16_1 (b0 b1 : Nat) (h0 : b0 < 2 ^ 8) (h1 : b1 < 2 ^ 8) :
    (b0 + b1 * 2 ^ 8) / 2 ^ 8 % 2 ^ 8 = b1 := by omega

theorem extractByte32_0 (b0 b1 b2 b3 : Nat) (h0 : b0 < 2 ^ 8) :
    (b0 + b1 * 2 ^ 8 + b2 * 2 ^ 16 + b3 * 2 ^ 24) % 2 ^ 8 = b0 := by omega

theorem extractByte32_1 (b0 b1 b2 b3 : Nat) (h0 : b0 < 2 ^ 8) (h1 : b1 < 2 ^ 8) :
    (b0 + b1 * 2 ^ 8 + b2 * 2 ^ 16 + b3 * 2 ^ 24) / 2 ^ 8 % 2 ^ 8 = b1 := by
  omega

theorem extractByte32_2 (b0 b1 b2 b3 : Nat) (h0 : b0 < 2 ^ 8) (h1 : b1 < 2 ^ 8)
    (h2 : b2 < 2 ^ 8) :
    (b0 + b1 * 2 ^ 8 + b2 * 2 ^ 16 + b3 * 2 ^ 24) / 2 ^ 16 % 2 ^ 8 = b2 := by
  omega

theorem extractByte32_3 (b0 b1 b2 b3 : Nat) (h0 : b0 < 2 ^ 8) (h1 : b1 < 2 ^ 8)
    (h2 : b2 < 2 ^ 8) (h3 : b3 < 2 ^ 8) :
    (b0 + b1 * 2 ^ 8 + b2 * 2 ^ 16 + b3 * 2 ^ 24) / 2 ^ 24 % 2 ^ 8 = b3 := by
  omega

theorem extractByte64_0 (b0 b1 b2 b3 b4 b5 b6 b7 : Nat) (h0 : b0 < 2 ^ 8) :
    (b0 + b1 * 2 ^ 8 + b2 * 2 ^ 16 + b3 * 2 ^ 24 + b4 * 2 ^ 32 + b5 * 2 ^ 40
      + b6 * 2 ^ 48 + b7 * 2 ^ 56) % 2 ^ 8 = b0 := by omega

theorem extractByte64_1 (b0 b1 b2 b3 b4 b5 b6 b7 : Nat) (h0 : b0 < 2 ^ 8)
    (h1 : b1 < 2 ^ 8) :
    (b0 + b1 * 2 ^ 8 + b2 * 2 ^ 16 + b3 * 2 ^ 24 + b4 * 2 ^ 32 + b5 * 2 ^ 40
      + b6 * 2 ^ 48 + b7 * 2 ^ 56) / 2 ^ 8 % 2 ^ 8 = b1 := by omega

theorem extractByte64_2 (b0 b1 b2 b3 b4 b5 b6 b7 : Nat) (h0 : b0 < 2 ^ 8)
    (h1 : b1 < 2 ^ 8) (h2 : b2 < 2 ^ 8) :
    (b0 + b1 * 2 ^ 8 + b2 * 2 ^ 16 + b3 * 2 ^ 24 + b4 * 2 ^ 32 + b5 * 2 ^ 40
      + b6 * 2 ^ 48 + b7 * 2 ^ 56) / 2 ^ 16 % 2 ^ 8 = b2 := by omega

theorem extractByte64_3 (b0 b1 b2 b3 b4 b5 b6 b7 : Nat) (h0 : b0 < 2 ^ 8)
    (h1 : b1 < 2 ^ 8) (h2 : b2 < 2 ^ 8) (h3 : b3 < 2 ^ 8) :
    (b0 + b1 * 2 ^ 8 + b2 * 2 ^ 16 + b3 * 2 ^ 24 + b4 * 2 ^ 32 + b5 * 2 ^ 40
      + b6 * 2 ^ 48 + b7 * 2 ^ 56) / 2 ^ 24 % 2 ^ 8 = b3 := by omega

theorem extractByte64_4 (b0 b1 b2 b3 b4 b5 b6 b7 : Nat) (h0 : b0 < 2 ^ 8)
    (h1 : b1 < 2 ^ 8) (h2 : b2 < 2 ^ 8) (h3 : b3 < 2 ^ 8) (h4 : b4 < 2 ^ 8) :
    (b0 + b1 * 2 ^ 8 + b2 * 2 ^ 16 + b3 * 2 ^ 24 + b4 * 2 ^ 32 + b5 * 2 ^ 40
      + b6 * 2 ^ 48 + b7 * 2 ^ 56) / 2 ^ 32 % 2 ^ 8 = b4 := by omega

theorem extractByte64_5 (b0 b1 b2 b3 b4 b5 b6 b7 : Nat) (h0 : b0 < 2 ^ 8)
    (h1 : b1 < 2 ^ 8) (h2 : b2 < 2 ^ 8) (h3 : b3 < 2 ^ 8) (h4 : b4 < 2 ^ 8)
    (h5 : b5 < 2 ^ 8) :
    (b0 + b1 * 2 ^ 8 + b2 * 2 ^ 16 + b3 * 2 ^ 24 + b4 * 2 ^ 32 + b5 * 2 ^ 40
      + b6 * 2 ^ 48 + b7 * 2 ^ 56) / 2 ^ 40 % 2 ^ 8 = b5 := by omega

theorem extractByte64_6 (b0 b1 b2 b3 b4 b5 b6 b7 : Nat) (h0 : b0 < 2 ^ 8)
    (h1 : b1 < 2 ^ 8) (h2 : b2 < 2 ^ 8) (h3 : b3 < 2 ^ 8) (h4 : b4 < 2 ^ 8)
    (h5 : b5 < 2 ^ 8) (h6 : b6 < 2 ^ 8) :
    (b0 + b1 * 2 ^ 8 + b2 * 2 ^ 16 + b3 * 2 ^ 24 + b4 * 2 ^ 32 + b5 * 2 ^ 40
      + b6 * 2 ^ 48 + b7 * 2 ^ 56) / 2 ^ 48 % 2 ^ 8 = b6 := by omega

theorem extractByte64_7 (b0 b1 b2 b3 b4 b5 b6 b7 : Nat) (h0 : b0 < 2 ^ 8)
    (h1 : b1 < 2 ^ 8) (h2 : b2 < 2 ^ 8) (h3 : b3 < 2 ^ 8) (h4 : b4 < 2 ^ 8)
    (h5 : b5 < 2 ^ 8) (h6 : b6 < 2 ^ 8) (h7 : b7 < 2 ^ 8) :
    (b0 + b1 * 2 ^ 8 + b2 * 2 ^ 16 + b3 * 2 ^ 24 + b4 * 2 ^ 32 + b5 * 2 ^ 40
      + b6 * 2 ^ 48 + b7 * 2 ^ 56) / 2 ^ 56 % 2 ^ 8 = b7 := by omega

/-- `bswap16` reverses the two bytes of a 16-bit value. -/
theorem bswap16_bytesForm (b0 b1 : Nat) (h0 : b0 < 2 ^ 8) (h1 : b1 < 2 ^ 8) :
    bswap16 (b0 + b1 * 2 ^ 8) = b1 + b0 * 2 ^ 8 := by
  rw [bswap16_closed (b0 + b1 * 2 ^ 8) (by omega),
    extractByte16_1 b0 b1 h0 h1, extractByte16_0 b0 b1 h0]

/-- `bswap32` reverses the four bytes of a 32-bit value. -/
theorem bswap32_bytesForm (b0 b1 b2 b3 : Nat) (h0 : b0 < 2 ^ 8)
    (h1 : b1 < 2 ^ 8) (h2 : b2 < 2 ^ 8) (h3 : b3 < 2 ^ 8) :
    bswap32 (b0 + b1 * 2 ^ 8 + b2 * 2 ^ 16 + b3 * 2 ^ 24)
      = b3 + b2 * 2 ^ 8 + b1 * 2 ^ 16 + b0 * 2 ^ 24 := by
  rw [bswap32_closed (b0 + b1 * 2 ^ 8 + b2 * 2 ^ 16 + b3 * 2 ^ 24) (by omega),
    extractByte32_3 b0 b1 b2 b3 h0 h1 h2 h3, extractByte32_2 b0 b1 b2 b3 h0 h1 h2,
    extractByte32_1 b0 b1 b2 b3 h0 h1, extractByte32_0 b0 b1 b2 b3 h0]

/-- `bswap64` reverses the eight bytes of a 64-bit value. -/
theorem bswap64_bytesForm (b0 b1 b2 b3 b4 b5 b6 b7 : Nat) (h0 : b0 < 2 ^ 8)
    (h1 : b1 < 2 ^ 8) (h2 : b2 < 2 ^ 8) (h3 : b3 < 2 ^ 8) (h4 : b4 < 2 ^ 8)
    (h5 : b5 < 2 ^ 8) (h6 : b6 < 2 ^ 8) (h7 : b7 < 2 ^ 8) :
    bswap64 (b0 + b1 * 2 ^ 8 + b2 * 2 ^ 16 + b3 * 2 ^ 24 + b4 * 2 ^ 32
        + b5 * 2 ^ 40 + b6 * 2 ^ 48 + b7 * 2 ^ 56)
      = b7 + b6 * 2 ^ 8 + b5 * 2 ^ 16 + b4 * 2 ^ 24 + b3 * 2 ^ 32
        + b2 * 2 ^ 40 + b1 * 2 ^ 48 + b0 * 2 ^ 56 := by
  rw [bswap64_closed (b0 + b1 * 2 ^ 8 + b2 * 2 ^ 16 + b3 * 2 ^ 24 + b4 * 2 ^ 32
      + b5 * 2 ^ 40 + b6 * 2 ^ 48 + b7 * 2 ^ 56) (by omega),
    extractByte64_7 b0 b1 b2 b3 b4 b5 b6 b7 h0 h1 h2 h3 h4 h5 h6 h7,
    extractByte64_6 b0 b1 b2 b3 b4 b5 b6 b7 h0 h1 h2 h3 h4 h5 h6,
    extractByte64_5 b0 b1 b2 b3 b4 b5 b6 b7 h0 h1 h2 h3 h4 h5,
    extractByte64_4 b0 b1 b2 b3 b4 b5 b6 b7 h0 h1 h2 h3 h4,
    extractByte64_3 b0 b1 b2 b3 b4 b5 b6 b7 h0 h1 h2 h3,
    extractByte64_2 b0 b1 b2 b3 b4 b5 b6 b7 h0 h1 h2,
    extractByte64_1 b0 b1 b2 b3 b4 b5 b6 b7 h0 h1,
    extractByte64_0 b0 b1 b2 b3 b4 b5 b6 b7 h0]

/-- Every 16-bit value splits into two bytes. -/
theorem byteDecomp16 (x : Nat) (hx : x < 2 ^ 16) :
    ∃ b0 b1 : Nat, b0 < 2 ^ 8 ∧ b1 < 2 ^ 8 ∧ x = b0 + b1 * 2 ^ 8 :=
  ⟨x % 2 ^ 8, x / 2 ^ 8, by omega, by omega, by omega⟩

/-- Every 32-bit value splits into four bytes. -/
theorem byteDecomp32 (x : Nat) (hx : x < 2 ^ 32) :
    ∃ b0 b1 b2 b3 : Nat, b0 < 2 ^ 8 ∧ b1 < 2 ^ 8 ∧ b2 < 2 ^ 8 ∧ b3 < 2 ^ 8 ∧
      x = b0 + b1 * 2 ^ 8 + b2 * 2 ^ 16 + b3 * 2 ^ 24 :=
  ⟨x % 2 ^ 8, x / 2 ^ 8 % 2 ^ 8, x / 2 ^ 16 % 2 ^ 8, x / 2 ^ 24,
    by omega, by omega, by omega, by omega, by omega⟩

/-- Every 64-bit value splits into eight bytes. -/
theorem byteDecomp64 (x : Nat) (hx : x < 2 ^ 64) :
    ∃ b0 b1 b2 b3 b4 b5 b6 b7 : Nat, b0 < 2 ^ 8 ∧ b1 < 2 ^ 8 ∧ b2 < 2 ^ 8 ∧
      b3 < 2 ^ 8 ∧ b4 < 2 ^ 8 ∧ b5 < 2 ^ 8 ∧ b6 < 2 ^ 8 ∧ b7 < 2 ^ 8 ∧
      x = b0 + b1 * 2 ^ 8 + b2 * 2 ^ 16 + b3 * 2 ^ 24 + b4 * 2 ^ 32
        + b5 * 2 ^ 40 + b6 * 2 ^ 48 + b7 * 2 ^ 56 :=
  ⟨x % 2 ^ 8, x / 2 ^ 8 % 2 ^ 8, x / 2 ^ 16 % 2 ^ 8, x / 2 ^ 24 % 2 ^ 8,
    x / 2 ^ 32 % 2 ^ 8, x / 2 ^ 40 % 2 ^ 8, x / 2 ^ 48 % 2 ^ 8, x / 2 ^ 56,
    by omega, by omega, by omega, by omega, by omega, by omega, by omega,
    by omega, by omega⟩

/-- C6: on any big-endian or little-endian host, `NetworkByteOrder` is an
involution: applying it twice to any 16-, 32- or 64-bit value returns the
original value. -/
theorem networkByteOrder_involution (bigEndian : Bool) :
    (∀ x, x < 2 ^ 16 →
      NetworkByteOrder16 bigEndian (NetworkByteOrder16 bigEndian x) = x) ∧
    (∀ x, x < 2 ^ 32 →
      NetworkByteOrder32 bigEndian (NetworkByteOrder32 bigEndian x) = x) ∧
    (∀ x, x < 2 ^ 64 →
      NetworkByteOrder64 bigEndian (NetworkByteOrder64 bigEndian x) = x) := by
  cases bigEndian with
  | true => exact ⟨fun x hx => rfl, fun x hx => rfl, fun x hx => rfl⟩
  | false =>
    refine ⟨fun x hx => ?_, fun x hx => ?_, fun x hx => ?_⟩
    · obtain ⟨b0, b1, h0, h1, rfl⟩ := byteDecomp16 x hx
      show bswap16 (bswap16 (b0 + b1 * 2 ^ 8)) = b0 + b1 * 2 ^ 8
      rw [bswap16_bytesForm b0 b1 h0 h1, bswap16_bytesForm b1 b0 h1 h0]
    · obtain ⟨b0, b1, b2, b3, h0, h1, h2, h3, rfl⟩ := byteDecomp32 x hx
      show bswap32 (bswap32 (b0 + b1 * 2 ^ 8 + b2 * 2 ^ 16 + b3 * 2 ^ 24))
        = b0 + b1 * 2 ^ 8 + b2 * 2 ^ 16 + b3 * 2 ^ 24
      rw [bswap32_bytesForm b0 b1 b2 b3 h0 h1 h2 h3,
        bswap32_bytesForm b3 b2 b1 b0 h3 h2 h1 h0]
    · obtain ⟨b0, b1, b2, b3, b4, b5, b6, b7, h0, h1, h2, h3, h4, h5, h6, h7,
        rfl⟩ := byteDecomp64 x hx
      show bswap64 (bswap64 (b0 + b1 * 2 ^ 8 + b2 * 2 ^ 16 + b3 * 2 ^ 24
          + b4 * 2 ^ 32 + b5 * 2 ^ 40 + b6 * 2 ^ 48 + b7 * 2 ^ 56))
        = b0 + b1 * 2 ^ 8 + b2 * 2 ^ 16 + b3 * 2 ^ 24 + b4 * 2 ^ 32
          + b5 * 2 ^ 40 + b6 * 2 ^ 48 + b7 * 2 ^ 56
      rw [bswap64_bytesForm b0 b1 b2 b3 b4 b5 b6 b7 h0 h1 h2 h3 h4 h5 h6 h7,
        bswap64_bytesForm b7 b6 b5 b4 b3 b2 b1 b0 h7 h6 h5 h4 h3 h2 h1 h0]

/-- Witness for C6 on a little-endian host at `x = 0x1234`. -/
theorem networkByteOrder_involution_witness :
    NetworkByteOrder16 false (NetworkByteOrder16 false 0x1234) = 0x1234 :=
  (networkByteOrder_involution false).1 0x1234 (by decide)

/-- C7 as stated is false: `0x00010100` has bytes `00 01 01 00` (not all
identical in value), yet the little-endian `NetworkByteOrder` returns it
unchanged. -/
theorem networkByteOrder_little_fixed_counterexample :
    (0x00010100 : Nat) % 2 ^ 8 ≠ 0x00010100 / 2 ^ 8 % 2 ^ 8 ∧
    NetworkByteOrder32 false 0x00010100 = 0x00010100 := by
  constructor
  · decide
  · decide

/-- C7 (amended): on a big-endian host `NetworkByteOrder(x) = x` for every
`x`; on a little-endian host `NetworkByteOrder(x) ≠ x` for every `x`
whose byte sequence is not a palindrome (for 16-bit values that is exactly
"the two bytes differ"). -/
theorem networkByteOrder_fixed_points :
    (∀ x : Nat, NetworkByteOrder16 true x = x ∧ NetworkByteOrder32 true x = x ∧
      NetworkByteOrder64 true x = x) ∧
    (∀ x, x < 2 ^ 16 → x % 2 ^ 8 ≠ x / 2 ^ 8 % 2 ^ 8 →
      NetworkByteOrder16 false x ≠ x) ∧
    (∀ x, x < 2 ^ 32 →
      ¬(x % 2 ^ 8 = x / 2 ^ 24 % 2 ^ 8 ∧ x / 2 ^ 8 % 2 ^ 8 = x / 2 ^ 16 % 2 ^ 8) →
      NetworkByteOrder32 false x ≠ x) ∧
    (∀ x, x < 2 ^ 64 →
      ¬(x % 2 ^ 8 = x / 2 ^ 56 % 2 ^ 8 ∧ x / 2 ^ 8 % 2 ^ 8 = x / 2 ^ 48 % 2 ^ 8 ∧
        x / 2 ^ 16 % 2 ^ 8 = x / 2 ^ 40 % 2 ^ 8 ∧
        x / 2 ^ 24 % 2 ^ 8 = x / 2 ^ 32 % 2 ^ 8) →
      NetworkByteOrder64 false x ≠ x) := by
  refine ⟨fun x => ⟨rfl, rfl, rfl⟩, fun x hx hb => ?_, fun x hx hb => ?_,
    fun x hx hb => ?_⟩
  · obtain ⟨b0, b1, h0, h1, rfl⟩ := byteDecomp16 x hx
    rw [extractByte16_0 b0 b1 h0, extractByte16_1 b0 b1 h0 h1] at hb
    show bswap16 (b0 + b1 * 2 ^ 8) ≠ b0 + b1 * 2 ^ 8
    rw [bswap16_bytesForm b0 b1 h0 h1]
    omega
  · obtain ⟨b0, b1, b2, b3, h0, h1, h2, h3, rfl⟩ := byteDecomp32 x hx
    rw [extractByte32_0 b0 b1 b2 b3 h0, extractByte32_1 b0 b1 b2 b3 h0 h1,
      extractByte32_2 b0 b1 b2 b3 h0 h1 h2,
      extractByte32_3 b0 b1 b2 b3 h0 h1 h2 h3] at hb
    show bswap32 (b0 + b1 * 2 ^ 8 + b2 * 2 ^ 16 + b3 * 2 ^ 24)
      ≠ b0 + b1 * 2 ^ 8 + b2 * 2 ^ 16 + b3 * 2 ^ 24
    rw [bswap32_bytesForm b0 b1 b2 b3 h0 h1 h2 h3]
    omega
  · obtain ⟨b0, b1, b2, b3, b4, b5, b6, b7, h0, h1, h2, h3, h4, h5, h6, h7,
      rfl⟩ := byteDecomp64 x hx
    rw [extractByte64_0 b0 b1 b2 b3 b4 b5 b6 b7 h0,
      extractByte64_1 b0 b1 b2 b3 b4 b5 b6 b7 h0 h1,
      extractByte64_2 b0 b1 b2 b3 b4 b5 b6 b7 h0 h1 h2,
      extractByte64_3 b0 b1 b2 b3 b4 b5 b6 b7 h0 h1 h2 h3,
      extractByte64_4 b0 b1 b2 b3 b4 b5 b6 b7 h0 h1 h2 h3 h4,
      extractByte64_5 b0 b1 b2 b3 b4 b5 b6 b7 h0 h1 h2 h3 h4 h5,
      extractByte64_6 b0 b1 b2 b3 b4 b5 b6 b7 h0 h1 h2 h3 h4 h5 h6,
      extractByte64_7 b0 b1 b2 b3 b4 b5 b6 b7 h0 h1 h2 h3 h4 h5 h6 h7] at hb
    show bswap64 (b0 + b1 * 2 ^ 8 + b2 * 2 ^ 16 + b3 * 2 ^ 24 + b4 * 2 ^ 32
        + b5 * 2 ^ 40 + b6 * 2 ^ 48 + b7 * 2 ^ 56)
      ≠ b0 + b1 * 2 ^ 8 + b2 * 2 ^ 16 + b3 * 2 ^ 24 + b4 * 2 ^ 32
        + b5 * 2 ^ 40 + b6 * 2 ^ 48 + b7 * 2 ^ 56
    rw [bswap64_bytesForm b0 b1 b2 b3 b4 b5 b6 b7 h0 h1 h2 h3 h4 h5 h6 h7]
    omega

/-- Witness for the amended C7 at the 16-bit value `0x1234`. -/
theorem networkByteOrder_fixed_points_witness :
    NetworkByteOrder16 false 0x1234 ≠ 0x1234 :=
  networkByteOrder_fixed_points.2.1 0x1234 (by decide) (by decide)

/-! ### The EndianClassification encoding -/

/-- The `enum class EndianClassification` of `byte_order.h`. -/
inductive EndianClassification where
  | Big_Endian
  | PDP_Endian
  | Honeywell_Endian
  | Little_Endian

/-- The `std::uint32_t` value of each enumerator, as written in
`byte_order.h`. -/
def EndianClassification.toValue : EndianClassification → Nat
  | .Big_Endian => 0x00010203
  | .PDP_Endian => 0x01000302
  | .Honeywell_Endian => 0x02030001
  | .Little_Endian => 0x03020100

/-- The spec's reading of the memory byte sequence `m0 m1 m2 m3` as a
32-bit big-endian value (most significant byte first). -/
def readBigEndian (m0 m1 m2 m3 : Nat) : Nat :=
  m0 * 2 ^ 24 + m1 * 2 ^ 16 + m2 * 2 ^ 8 + m3

/-- The spec's reading of the memory byte sequence `m0 m1 m2 m3` as a
32-bit little-endian value (least significant byte first). -/
def readLittleEndian (m0 m1 m2 m3 : Nat) : Nat :=
  m3 * 2 ^ 24 + m2 * 2 ^ 16 + m1 * 2 ^ 8 + m0

/-- The spec's reading of the memory byte sequence `m0 m1 m2 m3` as a
32-bit PDP-endian value: the more significant 16-bit word is stored
first, each word with its least significant byte first. -/
def readPDPEndian (m0 m1 m2 m3 : Nat) : Nat :=
  m1 * 2 ^ 24 + m0 * 2 ^ 16 + m3 * 2 ^ 8 + m2

/-- The spec's reading of the memory byte sequence `m0 m1 m2 m3` as a
32-bit Honeywell-endian value: the less significant 16-bit word is stored
first, each word with its most significant byte first. -/
def readHoneywellEndian (m0 m1 m2 m3 : Nat) : Nat :=
  m2 * 2 ^ 24 + m3 * 2 ^ 16 + m0 * 2 ^ 8 + m1

/-- C8: the `EndianClassification` encoding consists of exactly the four
32-bit values `0x00010203` (Big), `0x01000302` (PDP), `0x02030001`
(Honeywell) and `0x03020100` (Little), each being the 32-bit pattern
produced by reading the byte sequence `{0,1,2,3}` under the respective
byte ordering. -/
theorem endianClassification_encoding :
    EndianClassification.Big_Endian.toValue = 0x00010203 ∧
    EndianClassification.PDP_Endian.toValue = 0x01000302 ∧
    EndianClassification.Honeywell_Endian.toValue = 0x02030001 ∧
    EndianClassification.Little_Endian.toValue = 0x03020100 ∧
    EndianClassification.Big_Endian.toValue = readBigEndian 0 1 2 3 ∧
    EndianClassification.PDP_Endian.toValue = readPDPEndian 0 1 2 3 ∧
    EndianClassification.Honeywell_Endian.toValue = readHoneywellEndian 0 1 2 3 ∧
    EndianClassification.Little_Endian.toValue = readLittleEndian 0 1 2 3 ∧
    (∀ e : EndianClassification,
      e.toValue = 0x00010203 ∨ e.toValue = 0x01000302 ∨
        e.toValue = 0x02030001 ∨ e.toValue = 0x03020100) := by
  refine ⟨rfl, rfl, rfl, rfl, by decide, by decide, by decide, by decide,
    fun e => ?_⟩
  cases e
  · exact Or.inl rfl
  · exact Or.inr (Or.inl rfl)
  · exact Or.inr (Or.inr (Or.inl rfl))
  · exact Or.inr (Or.inr (Or.inr rfl))

end Terra.BitUtil
